import Mathlib

/-!
Shallow embedding of `cpu_temp_monitors.py`, a closed-loop fan controller
for three hardware domains (processor, storage, network adapter).

Temperatures are modelled as rationals (the Python code compares float
readings against integer thresholds); fan levels as integers.  The
side-effecting pieces (running `sensors`, `ipmitool`, the `sched` queue)
are modelled by returning the values such calls would receive and the
schedule entries such calls would create.
-/

namespace FanControl

/-- Embeds `CPU_THRESHOLDS`: the `[temp_threshold, fan_value]` rows of the
processor table, in source order. -/
def CPU_THRESHOLDS : List (ℚ × Int) :=
  [(1, 1), (27, 1), (33, 1), (37, 3), (42, 3), (49, 3), (54, 5), (59, 5),
   (64, 5), (69, 6), (73, 6), (79, 6), (80, 7), (87, 7)]

/-- Embeds `NIC_THRESHOLDS`: the network-adapter table, in source order. -/
def NIC_THRESHOLDS : List (ℚ × Int) :=
  [(1, 1), (27, 1), (33, 1), (37, 3), (42, 3), (49, 3), (54, 5), (59, 5),
   (64, 5), (69, 6), (73, 6), (79, 6), (80, 7), (87, 7)]

/-- Embeds `HDD_THRESHOLDS`: the storage table, in source order. -/
def HDD_THRESHOLDS : List (ℚ × Int) :=
  [(1, 1), (22, 2), (28, 2), (34, 2), (37, 3), (42, 3), (47, 4), (51, 5),
   (57, 6), (61, 7)]

/-- The accumulator loop of `choose_fan_value`: `chosen` plays the role of
`chosen_value`; on `temperature >= threshold` the accumulator becomes
`fan_val` and the scan continues, otherwise the loop breaks and the
current accumulator is returned. -/
def chooseGo (temperature : ℚ) (chosen : Int) : List (ℚ × Int) → Int
  | [] => chosen
  | (threshold, fan_val) :: rest =>
    if threshold ≤ temperature then chooseGo temperature fan_val rest else chosen

/-- Embeds `choose_fan_value(temperature, thresholds)`: scan the table in
list order starting from `chosen_value = 1`, updating on every satisfied
threshold and breaking at the first unsatisfied one. -/
def choose_fan_value (temperature : ℚ) (thresholds : List (ℚ × Int)) : Int :=
  chooseGo temperature 1 thresholds

/-- Embeds `set_fan_speed(fan_speed)`: returns the value actually passed to
the `ipmitool raw` actuator command, namely
`max(0x01, min(fan_speed, 0x64))`. -/
def set_fan_speed (fan_speed : Int) : Int :=
  max 1 (min fan_speed 100)

/-- The three latched module-level fan-speed globals of the script. -/
structure FanState where
  cpu_fan_speed : Int
  hdd_fan_speed : Int
  nic_fan_speed : Int
deriving DecidableEq

/-- Embeds the initial values of the globals: all three start at `0x03`. -/
def initialState : FanState := ⟨3, 3, 3⟩

/-- Embeds `update_final_fan_speed()`: computes
`max(cpu_fan_speed, hdd_fan_speed, nic_fan_speed)` and hands it to
`set_fan_speed`; the result is the level the actuator command receives. -/
def update_final_fan_speed (s : FanState) : Int :=
  set_fan_speed (max s.cpu_fan_speed (max s.hdd_fan_speed s.nic_fan_speed))

/-- The three monitored domains. -/
inductive Domain
  | cpu
  | hdd
  | nic
deriving DecidableEq

/-- Embeds the interval constants `CPU_SENSORS_CHECK_INTERVAL`,
`HDD_SENSORS_CHECK_INTERVAL`, `NIC_SENSORS_CHECK_INTERVAL`. -/
def domInterval : Domain → Nat
  | .cpu => 5
  | .hdd => 60
  | .nic => 5

/-- Observable actions a monitor cycle performs: an actuator invocation
(the `ipmitool` call issued by `set_fan_speed`, carrying the clamped
level) or a `scheduler.enter(delay, priority, action)` call. -/
inductive Event
  | apply (level : Int)
  | schedule (delay : Nat) (priority : Nat) (dom : Domain)
deriving DecidableEq

/-- Embeds `check_cpu()`.  `cpu_temp` is the result of
`get_cpu_temperature()` (`none` when `sensors` failed or `Tctl` was not
found).  On a reading the global is rewritten through the table; on
`none` it is left as is.  Either way `update_final_fan_speed()` runs and
the next check is entered at delay `CPU_SENSORS_CHECK_INTERVAL = 5`,
priority 1. -/
def check_cpu (s : FanState) (cpu_temp : Option ℚ) : FanState × List Event :=
  let s' : FanState :=
    match cpu_temp with
    | some t => { s with cpu_fan_speed := choose_fan_value t CPU_THRESHOLDS }
    | none => s
  (s', [Event.apply (update_final_fan_speed s'), Event.schedule 5 1 Domain.cpu])

/-- Embeds `check_nic()`.  `nic_temp` is the result of
`get_nic_temperature()`; structure as in `check_cpu`, with the next check
entered at delay `NIC_SENSORS_CHECK_INTERVAL = 5`, priority 1. -/
def check_nic (s : FanState) (nic_temp : Option ℚ) : FanState × List Event :=
  let s' : FanState :=
    match nic_temp with
    | some t => { s with nic_fan_speed := choose_fan_value t NIC_THRESHOLDS }
    | none => s
  (s', [Event.apply (update_final_fan_speed s'), Event.schedule 5 1 Domain.nic])

/-- The `max_hdd_temp` loop of `check_hdds`: starting from `0.0`, replace
the running maximum whenever `hdd_temp > max_hdd_temp`. -/
def max_hdd_temp_of (temps : List ℚ) : ℚ :=
  temps.foldl (fun m t => if m < t then t else m) 0

/-- Embeds `check_hdds()`.  `hdd_temperatures` is the device-temperature
mapping returned by `get_hdd_temperature()` in iteration order (device
names do not influence the computation, so only the temperatures are
kept; a failure of the external script yields `{}`, i.e. `[]`).  The
global `hdd_fan_speed` is rewritten unconditionally from the running
maximum (which stays `0.0` on an empty mapping); then
`update_final_fan_speed()` runs and the next check is entered at delay
`HDD_SENSORS_CHECK_INTERVAL = 60`, priority 2. -/
def check_hdds (s : FanState) (hdd_temperatures : List ℚ) : FanState × List Event :=
  let max_hdd_temp := max_hdd_temp_of hdd_temperatures
  let s' : FanState := { s with hdd_fan_speed := choose_fan_value max_hdd_temp HDD_THRESHOLDS }
  (s', [Event.apply (update_final_fan_speed s'), Event.schedule 60 2 Domain.hdd])

/-- Embeds the reschedule priorities: `check_cpu` and `check_nic` re-enter
themselves with priority 1, `check_hdds` with priority 2. -/
def domPriority : Domain → Nat
  | .cpu => 1
  | .hdd => 2
  | .nic => 1

/-- A pending `sched` event: absolute due time, priority, and which
domain check it will run. -/
structure ScheduleEntry where
  time : Nat
  priority : Nat
  dom : Domain
deriving DecidableEq

/-- The ordering `sched` uses on its queue: events compare by
`(time, priority)` lexicographically. -/
def entryLE (a b : ScheduleEntry) : Bool :=
  a.time < b.time || (a.time == b.time && a.priority ≤ b.priority)

/-- The earliest-due entry of the queue under `(time, priority)` order
(the first such entry in list order when keys tie). -/
def pickMin : List ScheduleEntry → Option ScheduleEntry
  | [] => none
  | e :: rest => some (rest.foldl (fun m x => if entryLE m x then m else x) e)

/-- One `scheduler.run` step: execute the earliest-due entry, which
removes it and — since each `check_*` body ends by re-entering itself —
enqueues the same domain again at `domInterval` later (cycles are
modelled as instantaneous, so the new due time is the executed entry's
time plus the interval).  Returns the executed domain and the new
queue. -/
def schedStep (q : List ScheduleEntry) : Option (Domain × List ScheduleEntry) :=
  match pickMin q with
  | none => none
  | some e =>
    some (e.dom, q.erase e ++ [⟨e.time + domInterval e.dom, domPriority e.dom, e.dom⟩])

/-- The sequence of domains executed by the first `n` scheduler steps. -/
def schedRun : Nat → List ScheduleEntry → List Domain
  | 0, _ => []
  | n + 1, q =>
    match schedStep q with
    | none => []
    | some (d, q') => d :: schedRun n q'

/-- Embeds the seeding in `main()`: `scheduler.enter(0, 1, check_cpu)`,
`scheduler.enter(0, 2, check_hdds)`, `scheduler.enter(0, 3, check_nic)`
— three immediate entries, in that order. -/
def mainSeed : List ScheduleEntry :=
  [⟨0, 1, Domain.cpu⟩, ⟨0, 2, Domain.hdd⟩, ⟨0, 3, Domain.nic⟩]

/-- The states of the three globals reachable from their initial values
under the monitor cycles, each fed an arbitrary sample outcome. -/
inductive Reachable : FanState → Prop
  | init : Reachable initialState
  | cpu {s : FanState} (o : Option ℚ) : Reachable s → Reachable (check_cpu s o).1
  | nic {s : FanState} (o : Option ℚ) : Reachable s → Reachable (check_nic s o).1
  | hdd {s : FanState} (temps : List ℚ) : Reachable s → Reachable (check_hdds s temps).1

/-- The level of the last pair of `l`, or `c` when `l` is empty. -/
def lastOrDefault (c : Int) : List (ℚ × Int) → Int
  | [] => c
  | a :: l => lastOrDefault a.2 l

/-- Modelled from the spec: "result = level of entry at the greatest
index i such that table[i].threshold ≤ temperature; if no entry
qualifies, result = 1 (minimum level)".  Filtering preserves list order,
so the last element of the filtered table is the qualifying entry of
greatest index. -/
def lastQualifyingLevel (temperature : ℚ) (thresholds : List (ℚ × Int)) : Int :=
  lastOrDefault 1 (thresholds.filter (fun p => decide (p.1 ≤ temperature)))

/-- The example table used by the spec's testable properties. -/
def exampleTable : List (ℚ × Int) :=
  [(1, 1), (27, 1), (37, 3), (54, 5), (69, 6), (80, 7)]

/-- On a table with strictly ascending thresholds, the break-at-first-miss
scan agrees with "last qualifying entry, else the accumulator". -/
theorem chooseGo_eq_filter (t : ℚ) (table : List (ℚ × Int)) :
    table.Pairwise (fun a b => a.1 < b.1) →
    ∀ c : Int, chooseGo t c table = lastOrDefault c (table.filter (fun p => decide (p.1 ≤ t))) := by
  induction table with
  | nil => intro _ c; rfl
  | cons hd tl ih =>
    intro hsort c
    rcases List.pairwise_cons.mp hsort with ⟨hhd, htl⟩
    obtain ⟨th, v⟩ := hd
    by_cases hle : th ≤ t
    · have hfilter : ((th, v) :: tl).filter (fun p => decide (p.1 ≤ t)) =
        (th, v) :: tl.filter (fun p => decide (p.1 ≤ t)) :=
        List.filter_cons_of_pos (by simpa using hle)
      calc chooseGo t c ((th, v) :: tl) = chooseGo t v tl := by simp [chooseGo, hle]
        _ = lastOrDefault v (tl.filter (fun p => decide (p.1 ≤ t))) := ih htl v
        _ = lastOrDefault c (((th, v) :: tl).filter (fun p => decide (p.1 ≤ t))) := by
            rw [hfilter]
            rfl
    · have hnil : ((th, v) :: tl).filter (fun p => decide (p.1 ≤ t)) = [] := by
        refine List.filter_eq_nil_iff.mpr ?_
        intro a ha
        rcases List.mem_cons.mp ha with rfl | ha'
        · simpa using hle
        · have hlt : th < a.1 := hhd a ha'
          have hnle : ¬ a.1 ≤ t := fun hc => hle (le_trans (le_of_lt hlt) hc)
          simpa using hnle
      rw [hnil]
      simp [chooseGo, hle, lastOrDefault]

/-- The scan's result never drops below a common lower bound of the
accumulator and every level in the table. -/
theorem le_chooseGo (t : ℚ) (c : Int) (l : List (ℚ × Int)) :
    ∀ acc : Int, c ≤ acc → (∀ p ∈ l, c ≤ p.2) → c ≤ chooseGo t acc l := by
  induction l with
  | nil => intro acc hacc _; exact hacc
  | cons hd tl ih =>
    intro acc hacc hl
    obtain ⟨th, v⟩ := hd
    by_cases h : th ≤ t
    · simp only [chooseGo, if_pos h]
      exact ih v (hl (th, v) (List.mem_cons_self _ _)) fun p hp => hl p (List.mem_cons_of_mem _ hp)
    · simpa [chooseGo, h] using hacc

/-- The scan is monotone in the temperature once the accumulators compare,
the smaller accumulator bounds every level, and the levels are pairwise
non-decreasing along the list. -/
theorem chooseGo_mono (t1 t2 : ℚ) (ht : t1 ≤ t2) (l : List (ℚ × Int)) :
    ∀ c1 c2 : Int, c1 ≤ c2 → (∀ p ∈ l, c1 ≤ p.2) →
      l.Pairwise (fun a b => a.2 ≤ b.2) → chooseGo t1 c1 l ≤ chooseGo t2 c2 l := by
  induction l with
  | nil => intro c1 c2 hc _ _; exact hc
  | cons hd tl ih =>
    intro c1 c2 hc hlow hpw
    obtain ⟨th, v⟩ := hd
    rcases List.pairwise_cons.mp hpw with ⟨hhd, htl⟩
    by_cases h1 : th ≤ t1
    · have h2 : th ≤ t2 := le_trans h1 ht
      simp only [chooseGo, if_pos h1, if_pos h2]
      exact ih v v le_rfl (fun p hp => hhd p hp) htl
    · by_cases h2 : th ≤ t2
      · simp only [chooseGo, if_neg h1, if_pos h2]
        exact le_chooseGo t2 c1 tl v (hlow (th, v) (List.mem_cons_self _ _))
          fun p hp => hlow p (List.mem_cons_of_mem _ hp)
      · simp only [chooseGo, if_neg h1, if_neg h2]
        exact hc

/-- The scan returns either its accumulator or one of the table's levels. -/
theorem chooseGo_mem_or (t : ℚ) (l : List (ℚ × Int)) :
    ∀ c : Int, chooseGo t c l = c ∨ chooseGo t c l ∈ l.map Prod.snd := by
  induction l with
  | nil => intro c; exact Or.inl rfl
  | cons hd tl ih =>
    intro c
    obtain ⟨th, v⟩ := hd
    by_cases h : th ≤ t
    · simp only [chooseGo, if_pos h]
      rcases ih v with heq | hmem
      · right; rw [heq]; exact List.mem_cons_self _ _
      · right; exact List.mem_cons_of_mem _ hmem
    · left
      simp [chooseGo, h]

/-- Any table whose levels all lie in `[1, 7]` yields a value in `[1, 7]`
(the fallback `1` included). -/
theorem choose_fan_value_bounds (t : ℚ) (table : List (ℚ × Int))
    (hb : ∀ p ∈ table, 1 ≤ p.2 ∧ p.2 ≤ 7) :
    1 ≤ choose_fan_value t table ∧ choose_fan_value t table ≤ 7 := by
  rcases chooseGo_mem_or t table 1 with heq | hmem
  · unfold choose_fan_value
    rw [heq]
    exact ⟨le_rfl, by norm_num⟩
  · unfold choose_fan_value
    rcases List.mem_map.mp hmem with ⟨p, hp, hpe⟩
    rw [← hpe]
    exact hb p hp

/-- Every reachable state keeps all three latched globals in `[1, 7]`. -/
theorem reachable_bounds {s : FanState} (h : Reachable s) :
    (1 ≤ s.cpu_fan_speed ∧ s.cpu_fan_speed ≤ 7) ∧
    (1 ≤ s.hdd_fan_speed ∧ s.hdd_fan_speed ≤ 7) ∧
    (1 ≤ s.nic_fan_speed ∧ s.nic_fan_speed ≤ 7) := by
  induction h with
  | init => refine ⟨⟨?_, ?_⟩, ⟨?_, ?_⟩, ?_, ?_⟩ <;> norm_num [initialState]
  | cpu o h ih =>
    cases o with
    | none => exact ih
    | some t => exact ⟨choose_fan_value_bounds t CPU_THRESHOLDS (by decide), ih.2.1, ih.2.2⟩
  | nic o h ih =>
    cases o with
    | none => exact ih
    | some t => exact ⟨ih.1, ih.2.1, choose_fan_value_bounds t NIC_THRESHOLDS (by decide)⟩
  | hdd temps h ih =>
    exact ⟨ih.1, choose_fan_value_bounds (max_hdd_temp_of temps) HDD_THRESHOLDS (by decide), ih.2.2⟩

/-- Embeds one run of the recompute-and-apply step
`update_final_fan_speed()`: the body only reads the three globals (its
`global` statement introduces no assignment), so the state passes
through unchanged, and exactly one actuator invocation (via
`set_fan_speed`) is issued. -/
def recompute_step (s : FanState) : FanState × List Int :=
  (s, [update_final_fan_speed s])

/-- The actuator calls issued by two back-to-back recompute steps. -/
def two_recomputes (s : FanState) : List Int :=
  (recompute_step s).2 ++ (recompute_step (recompute_step s).1).2

/-- C1 counterexample: a storage cycle whose device set is empty does not
leave the storage latch unchanged — with `hdd_fan_speed = 5` beforehand,
the cycle rewrites it to `1`. -/
theorem storage_empty_sample_overwrites :
    (check_hdds ⟨3, 5, 3⟩ []).1.hdd_fan_speed = 1 ∧
    ¬ (check_hdds ⟨3, 5, 3⟩ []).1.hdd_fan_speed = (⟨3, 5, 3⟩ : FanState).hdd_fan_speed := by
  decide

/-- C1 (amended): a failed sample on the processor or network-adapter
domain leaves that domain's latch unchanged, and two consecutive failed
samples leave it exactly equal to its value before the first failure;
the storage domain, however, treats a failed or empty device set as a
reading of `0.0` and unconditionally rewrites its latch with
`choose_fan_value(0.0, HDD_THRESHOLDS) = 1`. -/
theorem failed_sample_retention (s : FanState) :
    (check_cpu s none).1.cpu_fan_speed = s.cpu_fan_speed ∧
    (check_nic s none).1.nic_fan_speed = s.nic_fan_speed ∧
    (check_cpu (check_cpu s none).1 none).1.cpu_fan_speed = s.cpu_fan_speed ∧
    (check_nic (check_nic s none).1 none).1.nic_fan_speed = s.nic_fan_speed ∧
    (check_hdds s []).1.hdd_fan_speed = choose_fan_value 0 HDD_THRESHOLDS ∧
    choose_fan_value 0 HDD_THRESHOLDS = 1 :=
  ⟨rfl, rfl, rfl, rfl, rfl, by decide⟩

/-- C2: on a strictly ascending table, `choose_fan_value` returns the
level of the qualifying entry of greatest index and `1` when no entry
qualifies (in particular when the temperature is below every threshold);
on the spec's example table it returns `1` at 36, `3` at 37 and `7` at
90. -/
theorem choose_fan_value_last_qualifying (table : List (ℚ × Int))
    (hsort : table.Pairwise (fun a b => a.1 < b.1)) (t : ℚ) :
    choose_fan_value t table = lastQualifyingLevel t table ∧
    ((∀ p ∈ table, t < p.1) → choose_fan_value t table = 1) ∧
    choose_fan_value 36 exampleTable = 1 ∧
    choose_fan_value 37 exampleTable = 3 ∧
    choose_fan_value 90 exampleTable = 7 := by
  have hmain : choose_fan_value t table = lastQualifyingLevel t table :=
    chooseGo_eq_filter t table hsort 1
  refine ⟨hmain, ?_, by decide, by decide, by decide⟩
  intro hbelow
  rw [hmain]
  unfold lastQualifyingLevel
  have hnil : table.filter (fun p => decide (p.1 ≤ t)) = [] :=
    List.filter_eq_nil_iff.mpr fun a ha => by simpa using not_le.mpr (hbelow a ha)
  rw [hnil]
  rfl

/-- C2 witness: the theorem instantiated at the example table and
temperature 36, the sortedness hypothesis discharged by evaluation. -/
theorem choose_fan_value_last_qualifying_witness :
    exampleTable.Pairwise (fun a b => a.1 < b.1) ∧
    choose_fan_value 36 exampleTable = lastQualifyingLevel 36 exampleTable ∧
    choose_fan_value 36 exampleTable = 1 :=
  ⟨by decide, (choose_fan_value_last_qualifying exampleTable (by decide) 36).1,
    (choose_fan_value_last_qualifying exampleTable (by decide) 36).2.2.1⟩

/-- C3: the recompute step hands the actuator the maximum of the three
latched globals, clamped into `[1, 100]`; at latched levels `{4, 7, 2}`
the actuator receives `7`. -/
theorem recompute_applies_max (s : FanState) :
    update_final_fan_speed s =
      max 1 (min (max s.cpu_fan_speed (max s.hdd_fan_speed s.nic_fan_speed)) 100) ∧
    update_final_fan_speed ⟨4, 7, 2⟩ = 7 :=
  ⟨rfl, by decide⟩

/-- C4 counterexample: with the single-row table `[(0, 0)]` — strictly
ascending thresholds and non-decreasing levels — the map is not monotone:
at `-1` the fallback `1` is returned, at `0` the level `0`. -/
theorem choose_fan_value_monotone_counterexample :
    [((0 : ℚ), (0 : Int))].Pairwise (fun a b => a.1 < b.1) ∧
    [((0 : ℚ), (0 : Int))].Pairwise (fun a b => a.2 ≤ b.2) ∧
    (-1 : ℚ) ≤ 0 ∧
    ¬ choose_fan_value (-1) [((0 : ℚ), (0 : Int))] ≤
        choose_fan_value 0 [((0 : ℚ), (0 : Int))] := by
  refine ⟨?_, ?_, by norm_num, by decide⟩ <;> simp

/-- C4 (amended): on a table with strictly ascending thresholds,
non-decreasing levels, and every level at least `1` (so that no level
can drop below the fallback), `choose_fan_value` is non-decreasing in
the temperature. -/
theorem choose_fan_value_monotone (table : List (ℚ × Int))
    (hsort : table.Pairwise (fun a b => a.1 < b.1))
    (hlev : table.Pairwise (fun a b => a.2 ≤ b.2))
    (hone : ∀ p ∈ table, 1 ≤ p.2)
    (t1 t2 : ℚ) (ht : t1 ≤ t2) :
    choose_fan_value t1 table ≤ choose_fan_value t2 table :=
  chooseGo_mono t1 t2 ht table 1 1 le_rfl hone hlev

/-- C4 witness: the amended theorem instantiated at the example table and
temperatures 36 ≤ 37, all hypotheses discharged by evaluation. -/
theorem choose_fan_value_monotone_witness :
    exampleTable.Pairwise (fun a b => a.1 < b.1) ∧
    exampleTable.Pairwise (fun a b => a.2 ≤ b.2) ∧
    (∀ p ∈ exampleTable, 1 ≤ p.2) ∧
    choose_fan_value 36 exampleTable ≤ choose_fan_value 37 exampleTable :=
  ⟨by decide, by decide, by decide,
    choose_fan_value_monotone exampleTable (by decide) (by decide) (by decide) 36 37 (by norm_num)⟩

/-- C5: `set_fan_speed` passes exactly `max(1, min(n, 100))` to the
actuator command, a value never outside `[1, 100]`. -/
theorem set_fan_speed_clamp (n : Int) :
    set_fan_speed n = max 1 (min n 100) ∧ 1 ≤ set_fan_speed n ∧ set_fan_speed n ≤ 100 :=
  ⟨rfl, le_max_left _ _, max_le (by norm_num) (min_le_right _ _)⟩

/-- C6: two back-to-back recompute steps over unchanged latched globals
issue exactly two actuator calls carrying the same level — the apply is
unconditional, with no diffing against a previously applied value. -/
theorem recompute_no_suppression (s : FanState) :
    two_recomputes s = [update_final_fan_speed s, update_final_fan_speed s] ∧
    (two_recomputes s).length = 2 :=
  ⟨rfl, rfl⟩

/-- C7: every monitor cycle, on success or failure alike, issues exactly
one recompute-and-apply followed by one self-reschedule at its domain's
configured interval: 5 s for the processor, 5 s for the network adapter,
60 s for storage. -/
theorem cycle_recomputes_and_reschedules (s : FanState) (ocpu onic : Option ℚ)
    (temps : List ℚ) :
    (check_cpu s ocpu).2 =
      [Event.apply (update_final_fan_speed (check_cpu s ocpu).1),
       Event.schedule (domInterval Domain.cpu) 1 Domain.cpu] ∧
    (check_nic s onic).2 =
      [Event.apply (update_final_fan_speed (check_nic s onic).1),
       Event.schedule (domInterval Domain.nic) 1 Domain.nic] ∧
    (check_hdds s temps).2 =
      [Event.apply (update_final_fan_speed (check_hdds s temps).1),
       Event.schedule (domInterval Domain.hdd) 2 Domain.hdd] ∧
    domInterval Domain.cpu = 5 ∧ domInterval Domain.nic = 5 ∧ domInterval Domain.hdd = 60 :=
  ⟨rfl, rfl, rfl, rfl, rfl, rfl⟩

/-- C8: a failed sample on one domain leaves the other two domains'
latched globals exactly unchanged, and the failing domain still enters
its own next cycle into the scheduler. -/
theorem failure_isolation (s : FanState) :
    (check_cpu s none).1.hdd_fan_speed = s.hdd_fan_speed ∧
    (check_cpu s none).1.nic_fan_speed = s.nic_fan_speed ∧
    Event.schedule 5 1 Domain.cpu ∈ (check_cpu s none).2 ∧
    (check_nic s none).1.cpu_fan_speed = s.cpu_fan_speed ∧
    (check_nic s none).1.hdd_fan_speed = s.hdd_fan_speed ∧
    Event.schedule 5 1 Domain.nic ∈ (check_nic s none).2 ∧
    (check_hdds s []).1.cpu_fan_speed = s.cpu_fan_speed ∧
    (check_hdds s []).1.nic_fan_speed = s.nic_fan_speed ∧
    Event.schedule 60 2 Domain.hdd ∈ (check_hdds s []).2 := by
  refine ⟨rfl, rfl, ?_, rfl, rfl, ?_, rfl, rfl, ?_⟩ <;> simp [check_cpu, check_nic, check_hdds]

/-- C9: `main` seeds all three domains as immediate (due-now) entries, and
the scheduler's first three executions are exactly the three distinct
domains — every domain completes its first cycle before any domain (here
the processor, at its 5 s reschedule) begins its second. -/
theorem startup_first_cycles :
    (∀ e ∈ mainSeed, e.time = 0) ∧
    schedRun 3 mainSeed = [Domain.cpu, Domain.hdd, Domain.nic] ∧
    schedRun 4 mainSeed = [Domain.cpu, Domain.hdd, Domain.nic, Domain.cpu] := by
  decide

/-- C10: every reachable state keeps each latched global in `{1, ..., 7}`
(hence in `[1, 100]`), so the clamp inside `set_fan_speed` never changes
a value produced by arbitration over reachable states. -/
theorem reachable_state_invariant {s : FanState} (h : Reachable s) :
    (1 ≤ s.cpu_fan_speed ∧ s.cpu_fan_speed ≤ 7) ∧
    (1 ≤ s.hdd_fan_speed ∧ s.hdd_fan_speed ≤ 7) ∧
    (1 ≤ s.nic_fan_speed ∧ s.nic_fan_speed ≤ 7) ∧
    update_final_fan_speed s = max s.cpu_fan_speed (max s.hdd_fan_speed s.nic_fan_speed) := by
  obtain ⟨hc, hh, hn⟩ := reachable_bounds h
  refine ⟨hc, hh, hn, ?_⟩
  unfold update_final_fan_speed set_fan_speed
  have h1 : 1 ≤ max s.cpu_fan_speed (max s.hdd_fan_speed s.nic_fan_speed) :=
    le_trans hc.1 (le_max_left _ _)
  have h100 : max s.cpu_fan_speed (max s.hdd_fan_speed s.nic_fan_speed) ≤ 100 :=
    max_le (le_trans hc.2 (by norm_num))
      (max_le (le_trans hh.2 (by norm_num)) (le_trans hn.2 (by norm_num)))
  rw [min_eq_left h100, max_eq_right h1]

/-- C10 witness: the invariant instantiated at the initial state, whose
reachability is immediate. -/
theorem reachable_state_invariant_witness :
    (1 ≤ initialState.cpu_fan_speed ∧ initialState.cpu_fan_speed ≤ 7) ∧
    (1 ≤ initialState.hdd_fan_speed ∧ initialState.hdd_fan_speed ≤ 7) ∧
    (1 ≤ initialState.nic_fan_speed ∧ initialState.nic_fan_speed ≤ 7) ∧
    update_final_fan_speed initialState =
      max initialState.cpu_fan_speed (max initialState.hdd_fan_speed initialState.nic_fan_speed) :=
  reachable_state_invariant Reachable.init

end FanControl
